import Mathlib

/-!
Verification of the NER training workflow in
`projects/whats_cooking_good_looking/whats_cooking_good_looking/train_ner_workflow.py`.

The workflow's own logic operates on JSON data (Label Studio annotation
exports) decoded with `json.loads`, so we embed the JSON value universe as a
mutual inductive (`JVal` / `JArr` / `JObj`), Python `==` on such values as
`jeq`, Python's `json.dumps` (default separators, ASCII payloads) as
`json_dumps`, and each fallible Python operation (`d[k]`, `xs[0]`, iteration,
popping a dict key while iterating it) as an `Except PyErr` computation.

Numeric payloads of the JSON records are integers (span offsets), embedded as
`Int`; the accuracies computed by the evaluator and compared by the training
gate are embedded as `ℚ` (an idealisation of Python floats; every comparison
the development relies on is far from a representability boundary).

External collaborators (GCS download/upload, spacy model loading and the
spacy training loop) are not part of this repository's logic; they are
embedded as opaque successful effects (`SpacyModel`, `GateCall`), exactly as
the specification scopes them.
-/

namespace WCGL

set_option maxRecDepth 8000

/- JSON values as produced by `json.loads`: the data universe of the
annotation tasks.  `obj` keeps fields in insertion order, as Python dicts do. -/
mutual
inductive JVal where
  | null
  | bool (b : Bool)
  | num (n : Int)
  | str (s : String)
  | arr (elems : JArr)
  | obj (fields : JObj)
deriving DecidableEq
inductive JArr where
  | nil
  | cons (hd : JVal) (tl : JArr)
deriving DecidableEq
inductive JObj where
  | nil
  | cons (key : String) (val : JVal) (tl : JObj)
deriving DecidableEq
end

/-- Number of fields of a JSON object (`len(d)`). -/
def jobjLen : JObj → Nat
  | .nil => 0
  | .cons _ _ t => 1 + jobjLen t

/-- First binding of a key in a JSON object (`d[k]` lookup; keys produced by
`json.loads` are distinct). -/
def jlookup (k : String) : JObj → Option JVal
  | .nil => none
  | .cons k2 v t => if k2 = k then some v else jlookup k t

/-- Keys of a JSON object, in insertion order (`list(d)`). -/
def jkeys : JObj → List String
  | .nil => []
  | .cons k _ t => k :: jkeys t

/-- Length of a JSON array. -/
def jarrLen : JArr → Nat
  | .nil => 0
  | .cons _ t => 1 + jarrLen t

/-- A JSON array as a Lean list. -/
def JArr.toList : JArr → List JVal
  | .nil => []
  | .cons x t => x :: JArr.toList t

/-- A Lean list as a JSON array. -/
def JArr.ofList : List JVal → JArr
  | [] => .nil
  | x :: xs => .cons x (JArr.ofList xs)

/-- A Lean association list as a JSON object. -/
def JObj.ofList : List (String × JVal) → JObj
  | [] => .nil
  | (k, v) :: xs => .cons k v (JObj.ofList xs)

/- Python `==` on JSON values: numbers, strings and booleans by value,
arrays element-wise in order, and dicts as finite maps (same number of keys,
and every key of the left dict bound in the right one to an equal value —
order-insensitive, matching CPython's dict equality on dicts with distinct
keys). -/
mutual
def jeq : JVal → JVal → Bool
  | .null, .null => true
  | .bool a, .bool b => a == b
  | .num a, .num b => a == b
  | .str a, .str b => a == b
  | .arr xs, .arr ys => jeqArr xs ys
  | .obj xs, .obj ys => jobjLen xs == jobjLen ys && jeqFields xs ys
  | _, _ => false
def jeqArr : JArr → JArr → Bool
  | .nil, .nil => true
  | .cons x xs, .cons y ys => jeq x y && jeqArr xs ys
  | _, _ => false
def jeqFields : JObj → JObj → Bool
  | .nil, _ => true
  | .cons k v rest, ys =>
      (match jlookup k ys with
       | none => false
       | some v2 => jeq v v2) && jeqFields rest ys
end

/-- Decimal digits of a natural number, fuelled so that the recursion is
structural (the fuel `n + 1` always suffices since `n / 10 < n` for `n ≥ 10`). -/
def natCharsAux : Nat → Nat → List Char
  | 0, _ => []
  | fuel + 1, n =>
      if n < 10 then [Char.ofNat (48 + n)]
      else natCharsAux fuel (n / 10) ++ [Char.ofNat (48 + n % 10)]

/-- Decimal rendering of a natural number. -/
def natChars (n : Nat) : List Char := natCharsAux (n + 1) n

/-- Decimal rendering of an integer, as `json.dumps` writes it. -/
def intChars (i : Int) : List Char :=
  if i < 0 then '-' :: natChars i.natAbs else natChars i.natAbs

/-- JSON string escaping of one character (the payloads of this development
contain no control characters, so only the two mandatory escapes matter). -/
def escChar (c : Char) : List Char :=
  if c = '"' ∨ c = '\\' then ['\\', c] else [c]

/-- JSON string escaping. -/
def escChars : List Char → List Char
  | [] => []
  | c :: t => escChar c ++ escChars t

/-- A JSON string literal, quotes included. -/
def strChars (s : String) : List Char := '"' :: (escChars s.data ++ ['"'])

/-- Opening brace of a JSON object. -/
def obrace : Char := Char.ofNat 123

/-- Closing brace of a JSON object. -/
def cbrace : Char := Char.ofNat 125

/- Python's `json.dumps` with its default separators `", "` and `": "`
(`dumpsArrRest`/`dumpsObjRest` render the second and later items, each
preceded by `", "`).  On ASCII payloads the character count of this rendering
is the byte count of the serialized blob. -/
mutual
def json_dumps : JVal → List Char
  | .null => 'n' :: 'u' :: 'l' :: 'l' :: []
  | .bool true => 't' :: 'r' :: 'u' :: 'e' :: []
  | .bool false => 'f' :: 'a' :: 'l' :: 's' :: 'e' :: []
  | .num n => intChars n
  | .str s => strChars s
  | .arr xs => '[' :: (dumpsArr xs ++ [']'])
  | .obj fs => obrace :: (dumpsObj fs ++ [cbrace])
def dumpsArr : JArr → List Char
  | .nil => []
  | .cons x t => json_dumps x ++ dumpsArrRest t
def dumpsArrRest : JArr → List Char
  | .nil => []
  | .cons x t => ',' :: ' ' :: (json_dumps x ++ dumpsArrRest t)
def dumpsObj : JObj → List Char
  | .nil => []
  | .cons k v t => strChars k ++ (':' :: ' ' :: (json_dumps v ++ dumpsObjRest t))
def dumpsObjRest : JObj → List Char
  | .nil => []
  | .cons k v t => ',' :: ' ' :: (strChars k ++ (':' :: ' ' :: (json_dumps v ++ dumpsObjRest t)))
end

/-- Uncaught Python exceptions that the embedded code can raise. -/
inductive PyErr where
  | keyError
  | indexError
  | typeError
  | runtimeError
  | nameError
  | zeroDivisionError
deriving DecidableEq

/-- Python subscript `v[k]` with a string key `k`: dict lookup (`KeyError`
when the key is absent), `TypeError` on every non-dict value (lists and
strings demand integer indices; numbers, booleans and `None` are not
subscriptable). -/
def pyGetItem (v : JVal) (k : String) : Except PyErr JVal :=
  match v with
  | .obj fs =>
      match jlookup k fs with
      | some x => .ok x
      | none => .error .keyError
  | _ => .error .typeError

/-- Python subscript `v[0]`: first element of a list (`IndexError` when
empty), first character of a string, `KeyError` on a JSON dict (its keys are
strings, so the integer key `0` is absent), `TypeError` otherwise. -/
def pyIndexZero : JVal → Except PyErr JVal
  | .arr .nil => .error .indexError
  | .arr (.cons x _) => .ok x
  | .str s =>
      match s.data with
      | [] => .error .indexError
      | c :: _ => .ok (.str (String.mk [c]))
  | .obj _ => .error .keyError
  | _ => .error .typeError

/-- Python iteration `for x in v`: the elements of a list, the characters of
a string (each a one-character string), the keys of a dict, and `TypeError`
on anything else. -/
def pyIter : JVal → Except PyErr (List JVal)
  | .arr xs => .ok xs.toList
  | .str s => .ok (s.data.map fun c => .str (String.mk [c]))
  | .obj fs => .ok ((jkeys fs).map JVal.str)
  | _ => .error .typeError

/-- Whether some element of a JSON array is `==`-equal to the string `"id"`. -/
def jarrHasId : JArr → Bool
  | .nil => false
  | .cons x t => jeq x (.str "id") || jarrHasId t

/-- Lines 76–78 of `train_ner_workflow.py`:

```
for key in annotation_result:
    if key == "id":
        annotation_result.pop("id")
```

On a dict containing the key `"id"` the `pop` shrinks the dict while its
iterator is live, and CPython's next `next()` call raises
`RuntimeError: dictionary changed size during iteration` — even when `"id"`
was the last key.  On a dict without `"id"` the loop is a no-op.  Iterating a
string yields one-character strings, none equal to `"id"`, so the loop is a
no-op; on a list, an element equal to `"id"` reaches `list.pop("id")`, a
`TypeError`; non-iterable values raise `TypeError` at the `for` itself. -/
def stripIdKeys : JVal → Except PyErr JVal
  | .obj fs => if (jlookup "id" fs).isSome then .error .runtimeError else .ok (.obj fs)
  | .str s => .ok (.str s)
  | .arr xs => if jarrHasId xs then .error .typeError else .ok (.arr xs)
  | _ => .error .typeError

/-- `model_hits[model_version] += d` on a `defaultdict(int)`: the access
creates a zero entry for an unseen key (even when `d = 0`), updated keys keep
their insertion position, and new keys are appended. -/
def hitsInc : List (JVal × Nat) → JVal → Nat → List (JVal × Nat)
  | [], k, d => [(k, d)]
  | (k2, h) :: t, k, d =>
      if jeq k k2 then (k2, h + d) :: t else (k2, h) :: hitsInc t k d

/-- Lines 79–81 of `train_ner_workflow.py`: the prediction loop of one task.

```
for prediction in ls_task["predictions"]:
    model_version = prediction["model_version"]
    model_hits[model_version] += int(prediction["result"] == annotation_result)
```
-/
def processPreds (annRes : JVal) : List JVal → List (JVal × Nat) → Except PyErr (List (JVal × Nat))
  | [], hs => .ok hs
  | p :: t, hs => do
      let mv ← pyGetItem p "model_version"
      let r ← pyGetItem p "result"
      processPreds annRes t (hitsInc hs mv (if jeq r annRes then 1 else 0))

/-- Lines 74–81 of `train_ner_workflow.py`: processing of one Label Studio
task in the body of `evaluate_ner`'s main loop:

```
annotation_result = ls_task["result"][0]["value"]
for key in annotation_result:
    if key == "id":
        annotation_result.pop("id")
for prediction in ls_task["predictions"]:
    ...
```
-/
def processTask (hs : List (JVal × Nat)) (t : JVal) : Except PyErr (List (JVal × Nat)) := do
  let res ← pyGetItem t "result"
  let first ← pyIndexZero res
  let annRaw ← pyGetItem first "value"
  let annRes ← stripIdKeys annRaw
  let pv ← pyGetItem t "predictions"
  let preds ← pyIter pv
  processPreds annRes preds hs

/-- The main loop of `evaluate_ner` over all tasks of the decoded batch,
accumulating `model_hits`. -/
def runHits : List JVal → List (JVal × Nat) → Except PyErr (List (JVal × Nat))
  | [], hs => .ok hs
  | t :: ts, hs => do
      let hs2 ← processTask hs t
      runHits ts hs2

/-- Line 83 of `train_ner_workflow.py`: `num_task = len(tasks)`.  The loop on
line 74 iterates `json.loads(tasks)`, so `tasks` is the *undecoded* serialized
input, and `len(tasks)` is the byte length of the serialized batch — not the
number of tasks.  We embed the batch by its canonical `json.dumps` rendering
(ASCII payloads), whose character count is that byte count. -/
def num_task_of (ts : List JVal) : Nat := (json_dumps (.arr (JArr.ofList ts))).length

/-- Lines 84–87 of `train_ner_workflow.py`: build `model_acc` from
`model_hits.items()` in insertion order; each `num_hits / num_task` would
raise `ZeroDivisionError` were the denominator zero. -/
def accLoop (numTask : Nat) : List (JVal × Nat) → Except PyErr (List (JVal × ℚ))
  | [] => .ok []
  | (m, h) :: t =>
      if numTask = 0 then .error .zeroDivisionError
      else
        match accLoop numTask t with
        | .ok rest => .ok ((m, (h : ℚ) / (numTask : ℚ)) :: rest)
        | .error e => .error e

/-- `evaluate_ner` (lines 43–88 of `train_ner_workflow.py`) on a task batch
whose serialized form decodes to the JSON array with elements `ts`: returns
the mapping `{model_name: accuracy}` as an insertion-ordered association
list, or the uncaught exception the Python code would raise. -/
def evaluate_ner (ts : List JVal) : Except PyErr (List (JVal × ℚ)) :=
  match runHits ts [] with
  | .error e => .error e
  | .ok hs => accLoop (num_task_of ts) hs

/-- Number of predictions recorded in one task: the length of the iterable
at key `"predictions"`, and `0` when the task has no such iterable. -/
def taskNumPreds (t : JVal) : Nat :=
  match pyGetItem t "predictions" with
  | .ok pv =>
      match pyIter pv with
      | .ok l => l.length
      | .error _ => 0
  | .error _ => 0

/-- Total number of predictions recorded across a batch. -/
def totalPreds (ts : List JVal) : Nat := (ts.map taskNumPreds).sum

/-- Sum of all models' hit counters. -/
def sumHits (hs : List (JVal × Nat)) : Nat := (hs.map Prod.snd).sum

/-- Whether a prediction record carries a `model_version` that is `==`-equal
to `m`. -/
def predMentions (m : JVal) (p : JVal) : Bool :=
  match pyGetItem p "model_version" with
  | .ok mv => jeq mv m
  | .error _ => false

/-- Whether some prediction in a task's prediction list mentions `m`. -/
def taskMentions (m : JVal) (t : JVal) : Bool :=
  match pyGetItem t "predictions" with
  | .ok pv =>
      match pyIter pv with
      | .ok l => l.any (predMentions m)
      | .error _ => false
  | .error _ => false

/-- Whether some prediction of some task of the batch carries a
`model_version` that is `==`-equal to `m`. -/
def modelMentioned (m : JVal) (ts : List JVal) : Bool :=
  ts.any (taskMentions m)

/-- The entity tuples one annotated entity contributes in the comprehension
of `format_tasks_for_train` (lines 120–124 of `train_ner_workflow.py`):

```
(ent["value"]["start"], ent["value"]["end"], label)
    for label in ent["value"]["labels"]
```

The comprehension materialises the `labels` iterable first; `"start"` and
`"end"` are only subscripted when at least one label exists. -/
def entTriples (ent : JVal) : Except PyErr (List (JVal × JVal × JVal)) := do
  let v ← pyGetItem ent "value"
  let lv ← pyGetItem v "labels"
  let labs ← pyIter lv
  match labs with
  | [] => .ok []
  | _ :: _ => do
      let s ← pyGetItem v "start"
      let e ← pyGetItem v "end"
      .ok (labs.map fun lab => (s, e, lab))

/-- The full `entities` list of one task: the comprehension iterates the
entities of `ls_task["result"]` in order, flattening their label tuples. -/
def taskEntities : List JVal → Except PyErr (List (JVal × JVal × JVal))
  | [] => .ok []
  | ent :: rest => do
      let ts ← entTriples ent
      let more ← taskEntities rest
      .ok (ts ++ more)

/-- The lookup chain `ls_task["task"]["data"]["text"]` (line 126). -/
def taskText (t : JVal) : Except PyErr JVal := do
  let tk ← pyGetItem t "task"
  let dt ← pyGetItem tk "data"
  pyGetItem dt "text"

/-- Lines 118–126 of `train_ner_workflow.py`, one iteration: compute
`entities`; when it is empty, contribute nothing (`ls_task["task"]` is never
subscripted); otherwise contribute the pair
`(ls_task["task"]["data"]["text"], {"entities": entities})`, of which we keep
the text and the entity triples. -/
def formatTask (t : JVal) : Except PyErr (Option (JVal × List (JVal × JVal × JVal))) := do
  let res ← pyGetItem t "result"
  let ents ← pyIter res
  let entities ← taskEntities ents
  match entities with
  | [] => .ok none
  | _ :: _ => do
      let tx ← taskText t
      .ok (some (tx, entities))

/-- `format_tasks_for_train` (lines 109–127 of `train_ner_workflow.py`) on a
batch whose serialized form decodes to the JSON array with elements `ts`.
The source returns `json.dumps(train_data)`; we return the `train_data` list
itself (text and entity triples of each kept task), which determines that
serialization. -/
def format_tasks_for_train : List JVal → Except PyErr (List (JVal × List (JVal × JVal × JVal)))
  | [] => .ok []
  | t :: ts => do
      let o ← formatTask t
      let rest ← format_tasks_for_train ts
      match o with
      | none => .ok rest
      | some p => .ok (p :: rest)

/-- Spec-side rendering of section 4.2's `EntitySpan` conversion for one
annotated entity: one `(start, end, label)` triple per label of the entity,
and no triples (and no demand for offsets) when the label list is empty. -/
def specEntSpans (ent : JVal) : List (JVal × JVal × JVal) :=
  match ent with
  | .obj efs =>
      match jlookup "value" efs with
      | some (.obj vfs) =>
          match jlookup "labels" vfs with
          | some lv =>
              match pyIter lv with
              | .ok [] => []
              | .ok labs =>
                  match jlookup "start" vfs, jlookup "end" vfs with
                  | some s, some e => labs.map fun lab => (s, e, lab)
                  | _, _ => []
              | .error _ => []
          | none => []
      | _ => []
  | _ => []

/-- The accepted entities recorded in a task's `"result"` list. -/
def resultEnts (t : JVal) : List JVal :=
  match t with
  | .obj fs =>
      match jlookup "result" fs with
      | some rv =>
          match pyIter rv with
          | .ok l => l
          | .error _ => []
      | none => []
  | _ => []

/-- Concatenation of the images of a list-valued function. -/
def concatMap (f : α → List β) : List α → List β
  | [] => []
  | x :: xs => f x ++ concatMap f xs

/-- Spec-side accepted spans of one task: all `(start, end, label)` triples
of its accepted entities. -/
def specSpans (t : JVal) : List (JVal × JVal × JVal) :=
  concatMap specEntSpans (resultEnts t)

/-- Spec-side text of a task (meaningful under `taskWF`). -/
def specText (t : JVal) : JVal :=
  match taskText t with
  | .ok v => v
  | .error _ => .null

/-- Spec-side formatter, following section 4.2 of the specification: keep
exactly the tasks with at least one accepted entity span, each converted to
its (text, spans) pair with text and spans taken verbatim from the task. -/
def specFormat (ts : List JVal) : List (JVal × List (JVal × JVal × JVal)) :=
  ts.filterMap fun t =>
    match specSpans t with
    | [] => none
    | l => some (specText t, l)

/-- Whether an `Except` computation succeeded. -/
def excToBool : Except ε α → Bool
  | .ok _ => true
  | .error _ => false

/-- Well-formedness of one annotated entity for the formatter: an object
whose `"value"` is an object carrying an iterable `"labels"`, with `"start"`
and `"end"` present whenever at least one label exists. -/
def entWF (ent : JVal) : Bool :=
  match ent with
  | .obj efs =>
      match jlookup "value" efs with
      | some (.obj vfs) =>
          match jlookup "labels" vfs with
          | some lv =>
              match pyIter lv with
              | .ok [] => true
              | .ok (_ :: _) => (jlookup "start" vfs).isSome && (jlookup "end" vfs).isSome
              | .error _ => false
          | none => false
      | _ => false
  | _ => false

/-- Well-formedness of one task for the formatter: an object with an iterable
`"result"` of well-formed entities, and — when the task contributes at least
one span — a `"task"`/`"data"`/`"text"` chain for its source text. -/
def taskWF (t : JVal) : Bool :=
  match t with
  | .obj fs =>
      match jlookup "result" fs with
      | some rv =>
          match pyIter rv with
          | .ok ents =>
              ents.all entWF &&
                (match specSpans t with
                 | [] => true
                 | _ :: _ => excToBool (taskText t))
          | .error _ => false
      | none => false
  | _ => false

/-- The spacy model artifact returned by `spacy.load`, identified by the name
or path it was loaded from (external collaborator, modelled as succeeding). -/
inductive SpacyModel where
  | loaded (source : String)
deriving DecidableEq

/-- `SPACY_MODEL = {"en": "en_core_web_sm"}` (line 17). -/
def SPACY_MODEL : List (String × String) := [("en", "en_core_web_sm")]

/-- Association-list lookup with string keys (Python dict subscript on the
module-level constant dicts). -/
def lookupStr (k : String) : List (String × α) → Option α
  | [] => none
  | (k2, v) :: t => if k2 = k then some v else lookupStr k t

/-- The filename `download_from_gcs(gcs_bucket, gcs_source_blob_name, "tmp",
explicit_filepath=True)[0]` (external collaborator, modelled as succeeding
with a path derived from the blob name). -/
def gcsDownloadedFile (gcs_bucket : String) (gcs_source_blob_name : String) : String :=
  "tmp/" ++ gcs_bucket ++ "/" ++ gcs_source_blob_name

/-- `load_model` (lines 130–157 of `train_ner_workflow.py`).  On the
`from_gcs` branch the code binds `nlp` from the downloaded file but never
binds `model_name`; on the other branch it binds `model_name =
SPACY_MODEL[lang]` (a `KeyError` for an unsupported language).  Line 156 then
unconditionally executes `nlp = spacy.load(model_name)`, which reads
`model_name` — a `NameError` whenever the `from_gcs` branch was taken, and
the overwrite of the branch's `nlp` otherwise. -/
def load_model (lang : String) (from_gcs : Bool) (gcs_bucket : String)
    (gcs_source_blob_name : String) : Except PyErr SpacyModel := do
  let boundName : Option String ←
    if from_gcs then do
      let _nlp := SpacyModel.loaded (gcsDownloadedFile gcs_bucket gcs_source_blob_name)
      pure none
    else
      match lookupStr lang SPACY_MODEL with
      | some m => pure (some m)
      | none => Except.error PyErr.keyError
  match boundName with
  | none => Except.error PyErr.nameError
  | some model_name => Except.ok (SpacyModel.loaded model_name)

/-- `THRESHOLD_ACCURACY = 0.7` (line 23). -/
def THRESHOLD_ACCURACY : ℚ := 7 / 10

/-- The observable invocations the training gate can make on its retraining
branch (lines 213–215): the formatter, the spacy model load, and the
fine-tuning call with its iteration count.  `train_model` itself persists the
trained artifact to storage (line 198), an external effect subsumed in
`fineTune`. -/
inductive GateCall where
  | formatTasks
  | loadSpacyModel (lang : String) (from_gcs : Bool)
  | fineTune (training_iterations : Nat)
deriving DecidableEq

/-- The branch of `train_model_if_necessary` (lines 210–215 of
`train_ner_workflow.py`) as a function of the per-model accuracy mapping and
designated model name it reads:

```
if metrics_dict[model_name] >= THRESHOLD_ACCURACY:
    return
else:
    train_data = format_tasks_for_train(tasks=tasks)
    nlp = load_model(lang="en", from_gcs=False, ...)
    nlp = train_model(train_data=train_data, nlp=nlp, training_iterations=30)
```

The result is the ordered list of collaborator invocations. -/
def gateCalls (metrics_dict : List (String × ℚ)) (model_name : String) :
    Except PyErr (List GateCall) :=
  match lookupStr model_name metrics_dict with
  | none => .error .keyError
  | some acc =>
      if acc ≥ THRESHOLD_ACCURACY then .ok []
      else .ok [.formatTasks, .loadSpacyModel "en" false, .fineTune 30]

/-- `train_model_if_necessary` as shipped (lines 207–215): its
`metrics_dict` and `model_name` parameters are commented out and replaced by
the hard-coded bindings `metrics_dict = {"dummy": 0.5}` and
`model_name = "dummy"` (lines 208–209), after which the gate branch runs. -/
def train_model_if_necessary : Except PyErr (List GateCall) :=
  gateCalls [("dummy", 1 / 2)] "dummy"

/-! ### Concrete Label Studio records used as test inputs -/

/-- Fields of a typical accepted annotation value (the docstring example of
`evaluate_ner`, shortened offsets). -/
def exAnnFields : JObj :=
  .ofList [("start", .num 0), ("end", .num 1), ("text", .str "a"),
           ("labels", .arr (.ofList [.str "L"]))]

/-- A typical accepted annotation value. -/
def exAnn : JVal := .obj exAnnFields

/-- A task whose single prediction (model `"m"`) exactly matches the accepted
annotation. -/
def exMatchTask : JVal :=
  .obj (.ofList [
    ("result", .arr (.ofList [.obj (.ofList [("value", exAnn)])])),
    ("predictions", .arr (.ofList [
       .obj (.ofList [("result", exAnn), ("model_version", .str "m")])]))])

/-- An accepted annotation value that carries an `"id"` field. -/
def exIdAnn : JVal := .obj (.ofList [("id", .str "x"), ("start", .num 0)])

/-- A task whose accepted annotation carries an `"id"` field. -/
def exIdTask : JVal :=
  .obj (.ofList [
    ("result", .arr (.ofList [.obj (.ofList [("value", exIdAnn)])])),
    ("predictions", .arr .nil)])

/-- A prediction record with a `model_version` but no `"result"` payload. -/
def exNoPayloadPred : JVal := .obj (.ofList [("model_version", .str "m")])

/-- A task whose single prediction lacks the `"result"` payload. -/
def exNoPayloadTask : JVal :=
  .obj (.ofList [
    ("result", .arr (.ofList [.obj (.ofList [("value", exAnn)])])),
    ("predictions", .arr (.ofList [exNoPayloadPred]))])

/-- A prediction record whose payload is present but does not match `exAnn`. -/
def exMissPred : JVal := .obj (.ofList [("model_version", .str "m"), ("result", .null)])

/-- A task whose accepted-results list is empty. -/
def exEmptyResultTask : JVal := .obj (.ofList [("result", .arr .nil)])

/-- A task carrying two predictions from the same model `"m"`, both exactly
matching the accepted annotation. -/
def exDoubleTask : JVal :=
  .obj (.ofList [
    ("result", .arr (.ofList [.obj (.ofList [("value", exAnn)])])),
    ("predictions", .arr (.ofList [
       .obj (.ofList [("result", exAnn), ("model_version", .str "m")]),
       .obj (.ofList [("result", exAnn), ("model_version", .str "m")])]))])

/-- A task with one accepted entity span and a source text, as the formatter
consumes it. -/
def exFmtTask : JVal :=
  .obj (.ofList [
    ("result", .arr (.ofList [.obj (.ofList [("value", exAnn)])])),
    ("task", .obj (.ofList [("data", .obj (.ofList [("text", .str "ab")]))]))])

/-- A task with an empty accepted-span list (dropped by the formatter). -/
def exFmtEmptyTask : JVal := .obj (.ofList [("result", .arr .nil)])

/-! ### Basic lemmas about the embedded operations -/

theorem exc_bind_ok (a : α) (f : α → Except ε β) : (Except.ok a >>= f) = f a := rfl

theorem exc_bind_err (e : ε) (f : α → Except ε β) :
    (Except.error e >>= f : Except ε β) = Except.error e := rfl

theorem sumHits_hitsInc (hs : List (JVal × Nat)) (k : JVal) (d : Nat) :
    sumHits (hitsInc hs k d) = sumHits hs + d := by
  induction hs with
  | nil => simp [hitsInc, sumHits]
  | cons e t ih =>
      obtain ⟨k2, h⟩ := e
      by_cases hk : jeq k k2 = true
      · simp [hitsInc, hk, sumHits]
        omega
      · simp only [hitsInc, hk]
        simp [sumHits] at ih ⊢
        omega

theorem mem_le_sumHits {hs : List (JVal × Nat)} {e : JVal × Nat} (h : e ∈ hs) :
    e.2 ≤ sumHits hs := by
  induction hs with
  | nil => simp at h
  | cons f t ih =>
      rcases List.mem_cons.mp h with rfl | hmem
      · simp [sumHits]
      · have hrec := ih hmem
        simp [sumHits] at hrec ⊢
        omega

theorem hitsInc_keys {hs : List (JVal × Nat)} {m k : JVal} {d : Nat}
    (hhs : ∀ e ∈ hs, jeq e.1 m = false) (hk : jeq k m = false) :
    ∀ e ∈ hitsInc hs k d, jeq e.1 m = false := by
  induction hs with
  | nil =>
      intro e he
      simp [hitsInc] at he
      simp [he, hk]
  | cons f t ih =>
      obtain ⟨k2, h⟩ := f
      intro e he
      by_cases hjk : jeq k k2 = true
      · simp only [hitsInc, hjk, if_true] at he
        rcases List.mem_cons.mp he with rfl | hmem
        · exact hhs (k2, h) (by simp)
        · exact hhs e (by simp [hmem])
      · simp only [hitsInc, hjk, if_false, Bool.false_eq_true] at he
        rcases List.mem_cons.mp he with rfl | hmem
        · exact hhs (k2, h) (by simp)
        · exact ih (fun f hf => hhs f (by simp [hf])) e hmem

theorem accLoop_ok {numTask : Nat} (hnz : numTask ≠ 0) (hs : List (JVal × Nat)) :
    accLoop numTask hs = .ok (hs.map fun e => (e.1, (e.2 : ℚ) / (numTask : ℚ))) := by
  induction hs with
  | nil => simp [accLoop]
  | cons e t ih =>
      obtain ⟨m, h⟩ := e
      simp [accLoop, hnz, ih]

theorem processPreds_ok_sum {annRes : JVal} {l : List JVal} {hs hs2 : List (JVal × Nat)}
    (h : processPreds annRes l hs = .ok hs2) :
    sumHits hs2 ≤ sumHits hs + l.length := by
  induction l generalizing hs with
  | nil =>
      simp [processPreds] at h
      simp [h]
  | cons p t ih =>
      simp only [processPreds] at h
      cases hmv : pyGetItem p "model_version" with
      | error e => rw [hmv, exc_bind_err] at h; cases h
      | ok mv =>
          rw [hmv, exc_bind_ok] at h
          cases hr : pyGetItem p "result" with
          | error e => rw [hr, exc_bind_err] at h; cases h
          | ok r =>
              rw [hr, exc_bind_ok] at h
              have hrec := ih h
              rw [sumHits_hitsInc] at hrec
              have hd : (if jeq r annRes = true then 1 else 0) ≤ 1 := by
                split <;> omega
              simp only [List.length_cons]
              omega

theorem processPreds_keys {annRes m : JVal} {l : List JVal} {hs hs2 : List (JVal × Nat)}
    (hl : l.any (predMentions m) = false)
    (hhs : ∀ e ∈ hs, jeq e.1 m = false)
    (h : processPreds annRes l hs = .ok hs2) :
    ∀ e ∈ hs2, jeq e.1 m = false := by
  induction l generalizing hs with
  | nil =>
      simp [processPreds] at h
      simpa [← h] using hhs
  | cons p t ih =>
      simp only [List.any_cons, Bool.or_eq_false_iff] at hl
      simp only [processPreds] at h
      cases hmv : pyGetItem p "model_version" with
      | error e => rw [hmv, exc_bind_err] at h; cases h
      | ok mv =>
          rw [hmv, exc_bind_ok] at h
          cases hr : pyGetItem p "result" with
          | error e => rw [hr, exc_bind_err] at h; cases h
          | ok r =>
              rw [hr, exc_bind_ok] at h
              have hmvm : jeq mv m = false := by
                have := hl.1
                simpa [predMentions, hmv] using this
              exact ih hl.2 (hitsInc_keys hhs hmvm) h

theorem processTask_ok_sum {hs hs2 : List (JVal × Nat)} {t : JVal}
    (h : processTask hs t = .ok hs2) :
    sumHits hs2 ≤ sumHits hs + taskNumPreds t := by
  simp only [processTask] at h
  cases hres : pyGetItem t "result" with
  | error e => rw [hres, exc_bind_err] at h; cases h
  | ok res =>
      rw [hres, exc_bind_ok] at h
      cases hfst : pyIndexZero res with
      | error e => rw [hfst, exc_bind_err] at h; cases h
      | ok first =>
          rw [hfst, exc_bind_ok] at h
          cases hann : pyGetItem first "value" with
          | error e => rw [hann, exc_bind_err] at h; cases h
          | ok annRaw =>
              rw [hann, exc_bind_ok] at h
              cases hstr : stripIdKeys annRaw with
              | error e => rw [hstr, exc_bind_err] at h; cases h
              | ok annRes =>
                  rw [hstr, exc_bind_ok] at h
                  cases hpv : pyGetItem t "predictions" with
                  | error e => rw [hpv, exc_bind_err] at h; cases h
                  | ok pv =>
                      rw [hpv, exc_bind_ok] at h
                      cases hit : pyIter pv with
                      | error e => rw [hit, exc_bind_err] at h; cases h
                      | ok l =>
                          rw [hit, exc_bind_ok] at h
                          have := processPreds_ok_sum h
                          simp only [taskNumPreds, hpv, hit]
                          omega

theorem processTask_keys {m : JVal} {hs hs2 : List (JVal × Nat)} {t : JVal}
    (ht : taskMentions m t = false)
    (hhs : ∀ e ∈ hs, jeq e.1 m = false)
    (h : processTask hs t = .ok hs2) :
    ∀ e ∈ hs2, jeq e.1 m = false := by
  simp only [processTask] at h
  cases hres : pyGetItem t "result" with
  | error e => rw [hres, exc_bind_err] at h; cases h
  | ok res =>
      rw [hres, exc_bind_ok] at h
      cases hfst : pyIndexZero res with
      | error e => rw [hfst, exc_bind_err] at h; cases h
      | ok first =>
          rw [hfst, exc_bind_ok] at h
          cases hann : pyGetItem first "value" with
          | error e => rw [hann, exc_bind_err] at h; cases h
          | ok annRaw =>
              rw [hann, exc_bind_ok] at h
              cases hstr : stripIdKeys annRaw with
              | error e => rw [hstr, exc_bind_err] at h; cases h
              | ok annRes =>
                  rw [hstr, exc_bind_ok] at h
                  cases hpv : pyGetItem t "predictions" with
                  | error e => rw [hpv, exc_bind_err] at h; cases h
                  | ok pv =>
                      rw [hpv, exc_bind_ok] at h
                      cases hit : pyIter pv with
                      | error e => rw [hit, exc_bind_err] at h; cases h
                      | ok l =>
                          rw [hit, exc_bind_ok] at h
                          have hl : l.any (predMentions m) = false := by
                            simpa [taskMentions, hpv, hit] using ht
                          exact processPreds_keys hl hhs h

theorem runHits_ok_sum {ts : List JVal} {hs hs2 : List (JVal × Nat)}
    (h : runHits ts hs = .ok hs2) :
    sumHits hs2 ≤ sumHits hs + totalPreds ts := by
  induction ts generalizing hs with
  | nil =>
      simp [runHits] at h
      simp [← h, totalPreds]
  | cons t ts2 ih =>
      simp only [runHits] at h
      cases hpt : processTask hs t with
      | error e => rw [hpt, exc_bind_err] at h; cases h
      | ok hsMid =>
          rw [hpt, exc_bind_ok] at h
          have h1 := processTask_ok_sum hpt
          have h2 := ih h
          simp only [totalPreds, List.map_cons, List.sum_cons] at *
          omega

theorem runHits_keys {m : JVal} {ts : List JVal} {hs hs2 : List (JVal × Nat)}
    (hts : modelMentioned m ts = false)
    (hhs : ∀ e ∈ hs, jeq e.1 m = false)
    (h : runHits ts hs = .ok hs2) :
    ∀ e ∈ hs2, jeq e.1 m = false := by
  induction ts generalizing hs with
  | nil =>
      simp [runHits] at h
      simpa [← h] using hhs
  | cons t ts2 ih =>
      simp only [modelMentioned, List.any_cons, Bool.or_eq_false_iff] at hts
      simp only [runHits] at h
      cases hpt : processTask hs t with
      | error e => rw [hpt, exc_bind_err] at h; cases h
      | ok hsMid =>
          rw [hpt, exc_bind_ok] at h
          exact ih hts.2 (processTask_keys hts.1 hhs hpt) h

/-! ### Length bounds on the serialized batch

The denominator `num_task` of `evaluate_ner` is the length of the serialized
input (line 83).  The following lemmas bound the number of prediction records
of a batch by that length: every JSON value occupies at least one character,
and every nesting level only adds separators. -/

theorem natChars_length_pos (n : Nat) : 1 ≤ (natChars n).length := by
  simp only [natChars, natCharsAux]
  split <;> simp

theorem intChars_length_pos (i : Int) : 1 ≤ (intChars i).length := by
  simp only [intChars]
  split
  · simp
  · exact natChars_length_pos _

theorem json_dumps_length_pos : ∀ v : JVal, 1 ≤ (json_dumps v).length
  | .null => by simp [json_dumps]
  | .bool b => by cases b <;> simp [json_dumps]
  | .num n => by simpa only [json_dumps] using intChars_length_pos n
  | .str s => by simp [json_dumps, strChars]
  | .arr xs => by simp [json_dumps]
  | .obj fs => by simp [json_dumps]

theorem escChars_length_ge : ∀ cs : List Char, cs.length ≤ (escChars cs).length
  | [] => by simp [escChars]
  | c :: t => by
      have ih := escChars_length_ge t
      have hc : 1 ≤ (escChar c).length := by
        simp only [escChar]; split <;> simp
      simp only [escChars, List.length_append, List.length_cons]
      omega

theorem jarrLen_toList : ∀ xs : JArr, (JArr.toList xs).length = jarrLen xs
  | .nil => rfl
  | .cons x t => by
      have ih := jarrLen_toList t
      simp [JArr.toList, jarrLen, ih]
      omega

theorem jkeys_length : ∀ fs : JObj, (jkeys fs).length = jobjLen fs
  | .nil => rfl
  | .cons k v t => by
      have ih := jkeys_length t
      simp [jkeys, jobjLen, ih]
      omega

theorem dumpsArrRest_len : ∀ t : JArr, jarrLen t ≤ (dumpsArrRest t).length
  | .nil => by simp [jarrLen, dumpsArrRest]
  | .cons x t => by
      have ih := dumpsArrRest_len t
      have hx := json_dumps_length_pos x
      simp only [jarrLen, dumpsArrRest, List.length_cons, List.length_append]
      omega

theorem dumpsArr_len : ∀ xs : JArr, jarrLen xs ≤ (dumpsArr xs).length
  | .nil => by simp [jarrLen, dumpsArr]
  | .cons x t => by
      have ih := dumpsArrRest_len t
      have hx := json_dumps_length_pos x
      simp only [jarrLen, dumpsArr, List.length_append]
      omega

theorem dumpsObjRest_len : ∀ t : JObj, jobjLen t ≤ (dumpsObjRest t).length
  | .nil => by simp [jobjLen, dumpsObjRest]
  | .cons k v t => by
      have ih := dumpsObjRest_len t
      have hv := json_dumps_length_pos v
      simp only [jobjLen, dumpsObjRest, List.length_cons, List.length_append]
      omega

theorem dumpsObj_len : ∀ fs : JObj, jobjLen fs ≤ (dumpsObj fs).length
  | .nil => by simp [jobjLen, dumpsObj]
  | .cons k v t => by
      have ih := dumpsObjRest_len t
      have hv := json_dumps_length_pos v
      simp only [jobjLen, dumpsObj, List.length_cons, List.length_append]
      omega

theorem dumpsObjRest_lookup {k : String} {v : JVal} :
    ∀ {fs : JObj}, jlookup k fs = some v →
      (json_dumps v).length ≤ (dumpsObjRest fs).length
  | .nil, h => by simp [jlookup] at h
  | .cons k2 v2 t, h => by
      simp only [jlookup] at h
      by_cases hk : k2 = k
      · rw [if_pos hk] at h
        cases h
        simp only [dumpsObjRest, List.length_cons, List.length_append]
        omega
      · rw [if_neg hk] at h
        have ih := dumpsObjRest_lookup h
        simp only [dumpsObjRest, List.length_cons, List.length_append]
        omega

theorem dumpsObj_lookup {k : String} {v : JVal} :
    ∀ {fs : JObj}, jlookup k fs = some v →
      (json_dumps v).length ≤ (dumpsObj fs).length
  | .nil, h => by simp [jlookup] at h
  | .cons k2 v2 t, h => by
      simp only [jlookup] at h
      by_cases hk : k2 = k
      · rw [if_pos hk] at h
        cases h
        simp only [dumpsObj, List.length_cons, List.length_append]
        omega
      · rw [if_neg hk] at h
        have ih := dumpsObjRest_lookup h
        simp only [dumpsObj, List.length_cons, List.length_append]
        omega

theorem pyIter_len {v : JVal} {l : List JVal} (h : pyIter v = .ok l) :
    l.length ≤ (json_dumps v).length := by
  cases v with
  | arr xs =>
      simp only [pyIter, Except.ok.injEq] at h
      subst h
      have h1 := dumpsArr_len xs
      have h2 := jarrLen_toList xs
      simp only [json_dumps, List.length_cons, List.length_append]
      omega
  | str s =>
      simp only [pyIter, Except.ok.injEq] at h
      subst h
      have h1 := escChars_length_ge s.data
      simp only [json_dumps, strChars, List.length_map, List.length_cons, List.length_append]
      omega
  | obj fs =>
      simp only [pyIter, Except.ok.injEq] at h
      subst h
      have h1 := dumpsObj_len fs
      have h2 := jkeys_length fs
      simp only [json_dumps, List.length_map, List.length_cons, List.length_append]
      omega
  | null => simp [pyIter] at h
  | bool b => simp [pyIter] at h
  | num n => simp [pyIter] at h

theorem taskNumPreds_le (t : JVal) : taskNumPreds t ≤ (json_dumps t).length := by
  cases t with
  | obj fs =>
      cases hlk : jlookup "predictions" fs with
      | none => simp [taskNumPreds, pyGetItem, hlk]
      | some pv =>
          cases hit : pyIter pv with
          | error e => simp [taskNumPreds, pyGetItem, hlk, hit]
          | ok l =>
              have heq : taskNumPreds (.obj fs) = l.length := by
                simp [taskNumPreds, pyGetItem, hlk, hit]
              rw [heq]
              have h1 := pyIter_len hit
              have h2 := dumpsObj_lookup hlk
              simp only [json_dumps, List.length_cons, List.length_append]
              omega
  | null => simp [taskNumPreds, pyGetItem]
  | bool b => simp [taskNumPreds, pyGetItem]
  | num n => simp [taskNumPreds, pyGetItem]
  | str s => simp [taskNumPreds, pyGetItem]
  | arr xs => simp [taskNumPreds, pyGetItem]

theorem totalPreds_le_dumpsArrRest :
    ∀ ts : List JVal, totalPreds ts ≤ (dumpsArrRest (JArr.ofList ts)).length
  | [] => by simp [totalPreds, JArr.ofList, dumpsArrRest]
  | t :: ts => by
      have ih := totalPreds_le_dumpsArrRest ts
      have ht := taskNumPreds_le t
      simp only [totalPreds, List.map_cons, List.sum_cons, JArr.ofList, dumpsArrRest,
        List.length_cons, List.length_append] at *
      omega

theorem totalPreds_le_num_task (ts : List JVal) : totalPreds ts ≤ num_task_of ts := by
  cases ts with
  | nil => simp [totalPreds, num_task_of]
  | cons t ts2 =>
      have ih := totalPreds_le_dumpsArrRest ts2
      have ht := taskNumPreds_le t
      simp only [totalPreds, List.map_cons, List.sum_cons, num_task_of, JArr.ofList,
        json_dumps, dumpsArr, List.length_cons, List.length_append] at *
      omega

theorem num_task_pos (ts : List JVal) : 0 < num_task_of ts := by
  simp [num_task_of, json_dumps]

theorem runHits_append (a b : List JVal) (hs : List (JVal × Nat)) :
    runHits (a ++ b) hs =
      (runHits a hs >>= fun hs2 => runHits b hs2) := by
  induction a generalizing hs with
  | nil => simp [runHits, exc_bind_ok]
  | cons t a2 ih =>
      simp only [List.cons_append, runHits]
      cases hpt : processTask hs t with
      | ok hs2 => simp [exc_bind_ok, ih hs2]
      | error e => simp [exc_bind_err]

/-! ### The formatter agrees with the specification's filter/map contract -/

theorem entTriples_spec {ent : JVal} (h : entWF ent = true) :
    entTriples ent = .ok (specEntSpans ent) := by
  cases ent with
  | obj efs =>
      cases hv : jlookup "value" efs with
      | none => simp [entWF, hv] at h
      | some v =>
          cases v with
          | obj vfs =>
              cases hlv : jlookup "labels" vfs with
              | none => simp [entWF, hv, hlv] at h
              | some lv =>
                  cases hit : pyIter lv with
                  | error e => simp [entWF, hv, hlv, hit] at h
                  | ok labs =>
                      cases labs with
                      | nil =>
                          simp [entTriples, specEntSpans, pyGetItem, hv, hlv, hit, exc_bind_ok]
                      | cons lab labs2 =>
                          have hse : (jlookup "start" vfs).isSome = true ∧
                              (jlookup "end" vfs).isSome = true := by
                            have h2 := h
                            simp [entWF, hv, hlv, hit] at h2
                            exact h2
                          obtain ⟨hs1, he1⟩ := hse
                          obtain ⟨s, hs⟩ := Option.isSome_iff_exists.mp hs1
                          obtain ⟨e, he⟩ := Option.isSome_iff_exists.mp he1
                          simp [entTriples, specEntSpans, pyGetItem, hv, hlv, hit, hs, he,
                            exc_bind_ok]
          | null => simp [entWF, hv] at h
          | bool b => simp [entWF, hv] at h
          | num n => simp [entWF, hv] at h
          | str s => simp [entWF, hv] at h
          | arr xs => simp [entWF, hv] at h
  | null => simp [entWF] at h
  | bool b => simp [entWF] at h
  | num n => simp [entWF] at h
  | str s => simp [entWF] at h
  | arr xs => simp [entWF] at h

theorem taskEntities_spec {ents : List JVal} (h : ents.all entWF = true) :
    taskEntities ents = .ok (concatMap specEntSpans ents) := by
  induction ents with
  | nil => simp [taskEntities, concatMap]
  | cons ent rest ih =>
      simp only [List.all_cons, Bool.and_eq_true] at h
      simp [taskEntities, entTriples_spec h.1, ih h.2, concatMap, exc_bind_ok]

theorem formatTask_spec {t : JVal} (h : taskWF t = true) :
    formatTask t =
      .ok (match specSpans t with
           | [] => none
           | l => some (specText t, l)) := by
  cases t with
  | obj fs =>
      cases hrv : jlookup "result" fs with
      | none => simp [taskWF, hrv] at h
      | some rv =>
          cases hit : pyIter rv with
          | error e => simp [taskWF, hrv, hit] at h
          | ok ents =>
              have hall : ents.all entWF = true := by
                have h2 := h
                simp [taskWF, hrv, hit] at h2
                exact List.all_eq_true.mpr h2.1
              have hspans : specSpans (.obj fs) = concatMap specEntSpans ents := by
                simp [specSpans, resultEnts, hrv, hit]
              cases hsp : concatMap specEntSpans ents with
              | nil =>
                  simp [formatTask, pyGetItem, hrv, hit, taskEntities_spec hall, hsp,
                    hspans, exc_bind_ok]
              | cons sp sps =>
                  have htx : excToBool (taskText (.obj fs)) = true := by
                    have h2 := h
                    simp [taskWF, hrv, hit] at h2
                    have := h2.2
                    rw [hspans, hsp] at this
                    simpa using this
                  cases htt : taskText (.obj fs) with
                  | error e => simp [htt, excToBool] at htx
                  | ok tx =>
                      have hst : specText (.obj fs) = tx := by
                        simp [specText, htt]
                      simp [formatTask, pyGetItem, hrv, hit, taskEntities_spec hall, hsp,
                        hspans, hst, htt, exc_bind_ok]
  | null => simp [taskWF] at h
  | bool b => simp [taskWF] at h
  | num n => simp [taskWF] at h
  | str s => simp [taskWF] at h
  | arr xs => simp [taskWF] at h

/-! ### Concrete evaluator runs -/

theorem evaluate_ner_exMatchTask :
    evaluate_ner [exMatchTask] = .ok [(.str "m", (1 : ℚ) / 184)] := by
  have h1 : runHits [exMatchTask] [] = .ok [(.str "m", 1)] := rfl
  have h184 : num_task_of [exMatchTask] = 184 := rfl
  simp only [evaluate_ner, h1, h184]
  rw [accLoop_ok (by norm_num : (184 : Nat) ≠ 0)]
  norm_num

theorem evaluate_ner_exDoubleTask :
    evaluate_ner [exDoubleTask] = .ok [(.str "m", (2 : ℚ) / 272)] := by
  have h1 : runHits [exDoubleTask] [] = .ok [(.str "m", 2)] := rfl
  have h272 : num_task_of [exDoubleTask] = 272 := rfl
  simp only [evaluate_ner, h1, h272]
  rw [accLoop_ok (by norm_num : (272 : Nat) ≠ 0)]
  norm_num

/-! ### Settling the specification's claims -/

/-- Claim C1 (evidence of the code bug): on a batch of one task whose single
prediction exactly matches the accepted annotation, the computed accuracy is
`1/184`, where `184` is the byte length of the serialized batch — because
line 83 computes `num_task = len(tasks)` on the undecoded input — and not
`1/1`, the hit count divided by the number of `AnnotationTask` records. -/
theorem evaluate_ner_divides_by_serialized_length :
    evaluate_ner [exMatchTask] = .ok [(.str "m", (1 : ℚ) / 184)] ∧
    num_task_of [exMatchTask] = 184 ∧
    [exMatchTask].length = 1 ∧
    (1 : ℚ) / 184 ≠ 1 / 1 :=
  ⟨evaluate_ner_exMatchTask, rfl, rfl, by norm_num⟩

/-- Claim C2: the training gate branch (lines 210–215), as a function of the
per-model accuracy mapping and designated model name it reads, invokes no
retraining when that model's accuracy meets or exceeds `THRESHOLD_ACCURACY`
(0.7); otherwise it invokes the formatter, then the model load, then the
fine-tuning call with iteration count 30 — each exactly once. -/
theorem gateCalls_threshold (metrics_dict : List (String × ℚ)) (model_name : String)
    (acc : ℚ) (hlk : lookupStr model_name metrics_dict = some acc) :
    (THRESHOLD_ACCURACY ≤ acc → gateCalls metrics_dict model_name = .ok []) ∧
    (acc < THRESHOLD_ACCURACY →
      ∃ calls, gateCalls metrics_dict model_name = .ok calls ∧
        calls = [.formatTasks, .loadSpacyModel "en" false, .fineTune 30] ∧
        calls.count .formatTasks = 1 ∧
        calls.count (.fineTune 30) = 1) := by
  constructor
  · intro hge
    simp [gateCalls, hlk, ge_iff_le, hge]
  · intro hlt
    have hn : ¬(acc ≥ THRESHOLD_ACCURACY) := not_le.mpr hlt
    refine ⟨[.formatTasks, .loadSpacyModel "en" false, .fineTune 30], ?_, rfl, rfl, rfl⟩
    simp [gateCalls, hlk, hn]

/-- Claim C2 witness: accuracy 0.8 with the 0.7 threshold yields no training
invocation; accuracy 0.5 yields formatter plus fine-tune, exactly once. -/
theorem gateCalls_threshold_witness :
    gateCalls [("dummy", (4 : ℚ) / 5)] "dummy" = .ok [] ∧
    (∃ calls, gateCalls [("dummy", (1 : ℚ) / 2)] "dummy" = .ok calls ∧
      calls = [.formatTasks, .loadSpacyModel "en" false, .fineTune 30] ∧
      calls.count .formatTasks = 1 ∧
      calls.count (.fineTune 30) = 1) :=
  ⟨(gateCalls_threshold [("dummy", (4 : ℚ) / 5)] "dummy" ((4 : ℚ) / 5) rfl).1
      (by norm_num [THRESHOLD_ACCURACY]),
   (gateCalls_threshold [("dummy", (1 : ℚ) / 2)] "dummy" ((1 : ℚ) / 2) rfl).2
      (by norm_num [THRESHOLD_ACCURACY])⟩

/-- Claim C3 counterexample: the evaluator on the empty batch returns the
empty mapping normally — it does not reach a division-by-zero fault. -/
theorem evaluate_ner_empty_batch_ok : evaluate_ner ([] : List JVal) = .ok [] := rfl

/-- Claim C3 (amended): on the empty batch, the evaluator completes normally
with the empty mapping.  No division executes (the per-model loop is empty),
and the denominator is the length of the serialized input, `2` for `[]`,
which is nonzero anyway. -/
theorem evaluate_ner_empty_batch_normal :
    evaluate_ner ([] : List JVal) = .ok [] ∧
    runHits ([] : List JVal) [] = .ok [] ∧
    num_task_of [] = 2 :=
  ⟨rfl, rfl, rfl⟩

/-- Claim C4 (amended): the evaluator takes `ls_task["result"][0]["value"]`
as the accepted annotation; when it carries no `"id"` key, the stripping loop
is a no-op and each prediction's payload is compared by `==` against the
unchanged annotation; when it does carry an `"id"` key, popping it while the
dict iterator is live raises `RuntimeError`, so the id-stripping step fails
rather than completing. -/
theorem processTask_id_stripping (t rv f0 : JVal) (fs : JObj) (hs : List (JVal × Nat))
    (hres : pyGetItem t "result" = .ok rv)
    (hfst : pyIndexZero rv = .ok f0)
    (hval : pyGetItem f0 "value" = .ok (.obj fs)) :
    (jlookup "id" fs = none →
      processTask hs t =
        (pyGetItem t "predictions" >>= fun pv =>
          pyIter pv >>= fun preds => processPreds (.obj fs) preds hs)) ∧
    ((jlookup "id" fs).isSome = true →
      processTask hs t = .error .runtimeError) := by
  constructor
  · intro hid
    simp [processTask, hres, hfst, hval, stripIdKeys, hid, exc_bind_ok]
  · intro hid
    simp [processTask, hres, hfst, hval, stripIdKeys, hid, exc_bind_ok, exc_bind_err]

/-- Claim C4 counterexample: on a task whose accepted annotation carries an
`"id"` field, the evaluator raises `RuntimeError` instead of completing the
id-stripping normally. -/
theorem evaluate_ner_id_pop_runtime_error :
    evaluate_ner [exIdTask] = .error .runtimeError := rfl

/-- Claim C4 witness: an annotation without an `"id"` key is compared
unchanged. -/
theorem processTask_id_stripping_witness :
    pyGetItem exMatchTask "result" = .ok (.arr (.ofList [.obj (.ofList [("value", exAnn)])])) ∧
    jlookup "id" exAnnFields = none ∧
    processTask [] exMatchTask =
      (pyGetItem exMatchTask "predictions" >>= fun pv =>
        pyIter pv >>= fun preds => processPreds (.obj exAnnFields) preds []) :=
  ⟨rfl, rfl,
   (processTask_id_stripping exMatchTask _ _ exAnnFields [] rfl rfl rfl).1 rfl⟩

/-- Claim C5 (amended): a prediction whose `"result"` payload is present but
`==`-unequal to the accepted annotation counts as a miss (the model's counter
is bumped by zero) and evaluation of the remaining predictions proceeds; a
prediction lacking the `"result"` key raises `KeyError` instead. -/
theorem processPreds_miss_or_keyerror (annRes p mv : JVal) (l : List JVal)
    (hs : List (JVal × Nat))
    (hmv : pyGetItem p "model_version" = .ok mv) :
    (∀ r, pyGetItem p "result" = .ok r → jeq r annRes = false →
      processPreds annRes (p :: l) hs = processPreds annRes l (hitsInc hs mv 0)) ∧
    (pyGetItem p "result" = .error .keyError →
      processPreds annRes (p :: l) hs = .error .keyError) := by
  constructor
  · intro r hr hne
    simp [processPreds, hmv, hr, hne, exc_bind_ok]
  · intro hr
    simp [processPreds, hmv, hr, exc_bind_ok, exc_bind_err]

/-- Claim C5 counterexample: a prediction with no `"result"` payload makes
the evaluator raise `KeyError` — a missing payload is an error, not a miss. -/
theorem evaluate_ner_missing_payload_keyerror :
    evaluate_ner [exNoPayloadTask] = .error .keyError := rfl

/-- Claim C5 witness: a present-but-mismatched payload is a counted miss. -/
theorem processPreds_miss_or_keyerror_witness :
    pyGetItem exMissPred "model_version" = .ok (.str "m") ∧
    pyGetItem exMissPred "result" = .ok .null ∧
    jeq .null exAnn = false ∧
    processPreds exAnn [exMissPred] [] = processPreds exAnn [] (hitsInc [] (.str "m") 0) :=
  ⟨rfl, rfl, rfl,
   (processPreds_miss_or_keyerror exAnn exMissPred (.str "m") [] [] rfl).1 .null rfl rfl⟩

/-- Claim C6: on a batch of well-formed tasks the formatter succeeds and
returns exactly the specification-side conversion: the tasks with at least
one accepted entity span, in order, each as a (text, spans) pair with text
and spans preserved verbatim; tasks with an empty accepted-span list are
silently dropped. -/
theorem format_tasks_for_train_spec (ts : List JVal) (h : ts.all taskWF = true) :
    format_tasks_for_train ts = .ok (specFormat ts) := by
  induction ts with
  | nil => simp [format_tasks_for_train, specFormat]
  | cons t rest ih =>
      simp only [List.all_cons, Bool.and_eq_true] at h
      have hft := formatTask_spec h.1
      cases hsp : specSpans t with
      | nil =>
          simp [format_tasks_for_train, hft, hsp, ih h.2, specFormat,
            List.filterMap_cons, exc_bind_ok]
      | cons sp sps =>
          simp [format_tasks_for_train, hft, hsp, ih h.2, specFormat,
            List.filterMap_cons, exc_bind_ok]

/-- Claim C6 witness: a task with one accepted span is kept with its text and
span verbatim; a task with no accepted span is dropped. -/
theorem format_tasks_for_train_spec_witness :
    ([exFmtTask, exFmtEmptyTask].all taskWF = true) ∧
    format_tasks_for_train [exFmtTask, exFmtEmptyTask] =
      .ok (specFormat [exFmtTask, exFmtEmptyTask]) ∧
    specFormat [exFmtTask, exFmtEmptyTask] = [(.str "ab", [(.num 0, .num 1, .str "L")])] :=
  ⟨rfl, format_tasks_for_train_spec [exFmtTask, exFmtEmptyTask] rfl, rfl⟩

/-- Claim C7: a model identifier mentioned in no task's prediction list does
not occur as a key of the evaluator's output mapping (it is absent, not
mapped to zero). -/
theorem evaluate_ner_absent_model (ts : List JVal) (accs : List (JVal × ℚ)) (m : JVal)
    (hev : evaluate_ner ts = .ok accs)
    (habs : modelMentioned m ts = false) :
    ∀ e ∈ accs, jeq e.1 m = false := by
  intro e he
  cases hrh : runHits ts [] with
  | error er => simp [evaluate_ner, hrh] at hev
  | ok hs =>
      have hkeys := runHits_keys habs (by simp) hrh
      have hnz : num_task_of ts ≠ 0 := by
        have := num_task_pos ts
        omega
      simp only [evaluate_ner, hrh, accLoop_ok hnz] at hev
      have haccs : accs = hs.map fun f => (f.1, (f.2 : ℚ) / (num_task_of ts : ℚ)) := by
        simpa using hev.symm
      subst haccs
      obtain ⟨f, hf, hfe⟩ := List.mem_map.mp he
      have hjf := hkeys f hf
      rw [← hfe]
      simpa using hjf

/-- Claim C7 witness: model `"other"` occurs in no prediction of the batch,
and the single output key `"m"` is not equal to it. -/
theorem evaluate_ner_absent_model_witness :
    modelMentioned (.str "other") [exMatchTask] = false ∧
    jeq (JVal.str "m") (.str "other") = false :=
  ⟨rfl, by
    simpa using
      evaluate_ner_absent_model [exMatchTask] [(.str "m", (1 : ℚ) / 184)] (.str "other")
        evaluate_ner_exMatchTask rfl (.str "m", (1 : ℚ) / 184) (by simp)⟩

/-- Claim C8 (amended): for every batch the evaluator accepts, each model's
hit count is at most the total number of prediction records of the batch —
it can exceed the batch size when one task carries several predictions of the
same model — and every reported accuracy lies in the closed interval [0,1]
(the denominator being the serialized length of the batch). -/
theorem evaluate_ner_bounds (ts : List JVal) (hs : List (JVal × Nat)) (accs : List (JVal × ℚ))
    (hrh : runHits ts [] = .ok hs)
    (hev : evaluate_ner ts = .ok accs) :
    (∀ e ∈ hs, e.2 ≤ totalPreds ts) ∧
    (∀ e ∈ accs, 0 ≤ e.2 ∧ e.2 ≤ 1) := by
  have hsum : sumHits hs ≤ totalPreds ts := by
    have h := runHits_ok_sum hrh
    simpa [sumHits] using h
  constructor
  · intro e he
    exact le_trans (mem_le_sumHits he) hsum
  · have hnz : num_task_of ts ≠ 0 := by
      have := num_task_pos ts
      omega
    simp only [evaluate_ner, hrh, accLoop_ok hnz] at hev
    have haccs : accs = hs.map fun f => (f.1, (f.2 : ℚ) / (num_task_of ts : ℚ)) := by
      simpa using hev.symm
    subst haccs
    intro e he
    obtain ⟨f, hf, hfe⟩ := List.mem_map.mp he
    rw [← hfe]
    have hle : f.2 ≤ num_task_of ts :=
      le_trans (le_trans (mem_le_sumHits hf) hsum) (totalPreds_le_num_task ts)
    constructor
    · exact div_nonneg (Nat.cast_nonneg _) (Nat.cast_nonneg _)
    · exact div_le_one_of_le₀ (Nat.cast_le.mpr hle) (Nat.cast_nonneg _)

/-- Claim C8 counterexample: one task with two matching predictions of model
`"m"` gives that model a hit count of 2 on a batch of size 1 — the hit count
exceeds the batch size. -/
theorem runHits_double_hit :
    runHits [exDoubleTask] [] = .ok [(.str "m", 2)] ∧ [exDoubleTask].length = 1 :=
  ⟨rfl, rfl⟩

/-- Claim C8 witness: the bounds instantiated on the two-prediction batch. -/
theorem evaluate_ner_bounds_witness :
    runHits [exDoubleTask] [] = .ok [(JVal.str "m", 2)] ∧
    (2 : Nat) ≤ totalPreds [exDoubleTask] ∧
    (0 ≤ (2 : ℚ) / 272 ∧ (2 : ℚ) / 272 ≤ 1) := by
  have h :=
    evaluate_ner_bounds [exDoubleTask] [(.str "m", 2)] [(.str "m", (2 : ℚ) / 272)] rfl
      evaluate_ner_exDoubleTask
  exact ⟨rfl, by simpa using h.1 (.str "m", 2) (by simp),
    by simpa using h.2 (.str "m", (2 : ℚ) / 272) (by simp)⟩

/-- Claim C9: `load_model` with `from_gcs=True` downloads and loads the GCS
model, but line 156 then unconditionally executes `nlp =
spacy.load(model_name)`, and `model_name` is only bound on the other branch;
the call therefore always raises `NameError` and never returns the
GCS-downloaded model. -/
theorem load_model_from_gcs_nameerror (lang gcs_bucket gcs_source_blob_name : String) :
    load_model lang true gcs_bucket gcs_source_blob_name = .error .nameError := rfl

/-- Claim C10: a task whose `"result"` list is empty makes the evaluator
raise `IndexError` at the unguarded `ls_task["result"][0]` instead of
producing a mapping (here stated for the first offending task of the
batch). -/
theorem evaluate_ner_empty_result_indexerror (ts1 ts2 : List JVal) (t : JVal)
    (hs1 : List (JVal × Nat))
    (hpre : runHits ts1 [] = .ok hs1)
    (hres : pyGetItem t "result" = .ok (.arr .nil)) :
    evaluate_ner (ts1 ++ t :: ts2) = .error .indexError := by
  have hpt : processTask hs1 t = .error .indexError := by
    simp [processTask, hres, pyIndexZero, exc_bind_ok, exc_bind_err]
  have hrh : runHits (ts1 ++ t :: ts2) [] = .error .indexError := by
    rw [runHits_append, hpre, exc_bind_ok]
    simp [runHits, hpt, exc_bind_err]
  simp [evaluate_ner, hrh]

/-- Claim C10 witness: the empty-result task alone already crashes the
evaluator with `IndexError`. -/
theorem evaluate_ner_empty_result_indexerror_witness :
    pyGetItem exEmptyResultTask "result" = .ok (.arr .nil) ∧
    evaluate_ner [exEmptyResultTask] = .error .indexError :=
  ⟨rfl, by
    simpa using
      evaluate_ner_empty_result_indexerror [] [] exEmptyResultTask [] rfl rfl⟩

end WCGL
